import Mathlib

/-!
Shallow embedding of `src/downloader/downloader.cpp`.

The program crawls git repositories: it schedules projects from a seed file,
clones each project into a per-id workspace, walks all branches, extracts each
file's history, deduplicates (commit, path) snapshots per worker and content
blobs globally, and stores each distinct blob once under a sharded path.

Modelling conventions:
- Machine `long` becomes `Int`; the code's `static_assert(sizeof(long) == 8)`
  documents that ids stay far below overflow, so overflow is not modelled.
- `std::unordered_map<Hash, long>` becomes an association list
  `List (String × Int)` in insertion order; `std::unordered_set` becomes a
  `List` without duplicates, membership tested with the embedded `==`.
- A C++ function that can fall off its end without a `return` (the miss path
  of `Downloader::getContentId`) yields `Option`: `none` stands for the
  indeterminate value of the missing return.
- Filesystem effects are explicit state: the set of existing workspace
  directories and the list of blob files written.
- External collaborators that are not under `src/` (csv.h, git.h, hash.h,
  pattern_lists.h, worker.h) are modelled from the spec where a claim needs
  them; each such definition carries a `Modelled from the spec:` doc comment.
-/

/-- Embeds `class Project` (downloader.cpp lines 29-116): id and git url.
`localPath` is handled separately as explicit directory state, and
`hasDeniedFiles` as an explicit flag where needed. -/
structure Project where
  id : Int
  gitUrl : String
  deriving DecidableEq

/-- Embeds `Project::Project(std::string const & gitUrl)` (lines 36-39) acting
on the allocator `Project::idIndex_`: the new project takes the current
counter value and the counter advances by one. -/
def createAuto (gitUrl : String) (idIndex : Int) : Project × Int :=
  ({ id := idIndex, gitUrl := gitUrl }, idIndex + 1)

/-- Embeds `Project::Project(std::string const & gitUrl, long id)`
(lines 45-54): the project adopts the given id, and the compare-and-retry
loop `while (idIndex_ <= id) ... compare_exchange_weak(old, id + 1)` raises
the counter to `id + 1` exactly when it was at most `id` (sequential
semantics; the code's own comment says a single thread creates projects). -/
def createWithId (gitUrl : String) (id : Int) (idIndex : Int) : Project × Int :=
  ({ id := id, gitUrl := gitUrl }, if idIndex ≤ id then id + 1 else idIndex)

/-- Embeds C `strtol(s, endptr, 10)` as called at line 264: skip leading
whitespace, optional sign, then consume leading decimal digits, returning 0
when no digit is present. `strtol` reports failure through `errno`/`endptr`
and never throws. (The call site also passes an uninitialized `char ** c` as
`endptr`, which is undefined behaviour in C++; the numeric semantics are
modelled.) -/
def parseDigitsAcc : List Char → Int → Int
  | [], acc => acc
  | c :: cs, acc =>
      if c.isDigit then parseDigitsAcc cs (acc * 10 + ((c.toNat : Int) - 48)) else acc

/-- See `parseDigitsAcc`; this is the whole of `strtol(·, ·, 10)`. -/
def strtol (s : String) : Int :=
  match s.data.dropWhile Char.isWhitespace with
  | '-' :: rest => - parseDigitsAcc rest 0
  | '+' :: rest => parseDigitsAcc rest 0
  | rest => parseDigitsAcc rest 0

/-- State threaded through `Downloader::FeedProjectsFrom` (lines 253-271):
the project-id allocator, the projects passed to `Schedule`, and the
`Error(...)` reports (file name, line number). -/
structure FeedState where
  idIndex : Int
  scheduled : List Project
  errors : List (String × Nat)
  deriving DecidableEq

/-- Embeds one iteration of the loop body of `FeedProjectsFrom`
(lines 256-270): one field schedules an auto-id project; two fields schedule
`Project(x[0], strtol(x[1], c, 10))` — the `try`/`catch` around it can never
fire because `strtol` does not throw, so this branch always schedules; any
other field count reports an error naming file and line and schedules
nothing. -/
def feedRow (filename : String) (st : FeedState) (line : Nat) (x : List String) : FeedState :=
  match x with
  | [url] =>
      let r := createAuto url st.idIndex
      { st with scheduled := st.scheduled ++ [r.1], idIndex := r.2 }
  | [url, idField] =>
      let r := createWithId url (strtol idField) st.idIndex
      { st with scheduled := st.scheduled ++ [r.1], idIndex := r.2 }
  | _ => { st with errors := st.errors ++ [(filename, line)] }

/-- Embeds `Downloader::FeedProjectsFrom` (lines 253-271) over the parsed
rows of the seed file. Modelled from the spec: `CSVParser` (include/csv.h) is
not under src/; the spec describes the seed as a delimited-text file, one
record per line, so the parser's output is taken as the input
`rows : List (List String)`. The line counter starts at 1 (`++line` precedes
the body). -/
def feedProjectsFrom (filename : String) (rows : List (List String))
    (idIndex0 : Int) : FeedState :=
  (rows.foldl (fun p x => (feedRow filename p.1 (p.2 + 1) x, p.2 + 1))
    ({ idIndex := idIndex0, scheduled := [], errors := [] }, 0)).1

/-- Modelled from the spec: `Hash::Calculate` (include/hash.h) is not under
src/; the spec says the identity of a blob is "a cryptographic/content hash
of the raw byte sequence" and that "hash collisions between distinct byte
sequences are assumed not to occur", so the hash is modelled as the byte
sequence itself (a collision-free hash). -/
def hashCalculate (text : String) : String := text

/-- The shared content-store state of `Downloader` (lines 432-434): the
static map `fileHashes_` from content hash to content id, in insertion order,
together with the blob files the store has written to disk (content id paired
with the bytes written at the sharded path for that id). -/
structure Store where
  fileHashes : List (String × Int)
  written : List (Int × String)
  deriving DecidableEq

/-- Embeds `Downloader::getContentId` (lines 367-389). On a hash-table hit it
executes `return i->second`. On a miss it allocates `id = fileHashes_.size()`,
inserts the mapping, writes the blob to the sharded path, optionally signals
the shard-completion hook — and then falls off the end of the function
without any `return` statement, so the caller receives no defined value:
the first component is `none` on the whole miss path. -/
def getContentId (text : String) (st : Store) : Option Int × Store :=
  let h := hashCalculate text
  match st.fileHashes.lookup h with
  | some id => (some id, st)
  | none =>
      let id : Int := st.fileHashes.length
      (none,
       { fileHashes := st.fileHashes ++ [(h, id)],
         written := st.written ++ [(id, text)] })

/-- Embeds `class FileSnapshot` (lines 130-177): project-local sequence id,
commit hash, relative path, content id, commit time. `contentId` is
`Option Int`: `some v` is a determinate stored value (initially `some (-1)`),
`none` is the indeterminate value assigned from `getContentId`'s missing
return. -/
structure FileSnapshot where
  id : Int
  commit : String
  relPath : String
  contentId : Option Int
  time : Int
  deriving DecidableEq

/-- Embeds `FileSnapshot::operator==` (lines 167-169): equal iff commit and
relative path both match. -/
def fsBeq (a b : FileSnapshot) : Bool :=
  a.commit == b.commit && a.relPath == b.relPath

/-- Embeds `std::hash<FileSnapshot>` (lines 179-190): the sum of the string
hashes of commit and relative path, as a `size_t` (reduced mod 2^64). The
string hash `std::hash<std::string>` is an arbitrary parameter `hstr`. -/
def fsHash (hstr : String → Nat) (f : FileSnapshot) : Nat :=
  (hstr f.commit + hstr f.relPath) % 2 ^ 64

/-- Modelled from the spec: one entry of `Git::GetFileHistory` together with
the outcome of `Git::GetFileRevision` for it (git.h is not under src/).
`hash`, `filename`, `date` are the fields `FileSnapshot`'s constructor reads
(lines 143-149); `content` is `some text` when retrieval succeeds and `none`
when retrieval reports the file absent at that revision (deletion). -/
structure FileHistory where
  hash : String
  filename : String
  date : Int
  content : Option String
  deriving DecidableEq

/-- Modelled from the spec: one entry of `Git::GetFileInfo` (git.h is not
under src/): a tracked file of the checked-out branch and its full commit
history. -/
structure FileInfo where
  filename : String
  history : List FileHistory
  deriving DecidableEq

/-- Embeds `FileSnapshot::FileSnapshot(Git::FileHistory const & h)`
(lines 143-149): id starts unassigned (-1), contentId starts -1. -/
def mkFileSnapshot (h : FileHistory) : FileSnapshot :=
  { id := -1, commit := h.hash, relPath := h.filename,
    contentId := some (-1), time := h.date }

/-- The mutable state a `Downloader` worker instance acts on: its member set
`files_` (line 429, in insertion order), the shared static content store, and
the existing workspace directories of the filesystem. -/
structure DState where
  files : List FileSnapshot
  store : Store
  dirs : List String
  deriving DecidableEq

/-- Embeds the history-entry body of `Downloader::processFiles`
(lines 346-360): build the snapshot; if an equal snapshot is already in
`files_`, do nothing; otherwise retrieve the revision — on failure (deleted
revision) do nothing, on success assign `id = files_.size()`, obtain the
content id, and insert the snapshot into `files_`. -/
def processEntry (st : DState) (fh : FileHistory) : DState :=
  let fs := mkFileSnapshot fh
  if st.files.any (fun g => fsBeq g fs) then st
  else
    match fh.content with
    | none => st
    | some text =>
        let r := getContentId text st.store
        { st with
          files := st.files ++
            [{ fs with id := (st.files.length : Int), contentId := r.1 }],
          store := r.2 }

/-- Embeds the per-file body of `Downloader::processFiles` (lines 338-364).
Modelled from the spec for the classifier: `PatternList::check(filename,
denied)` (include/pattern_lists.h is not under src/) returns whether the
file is accepted and sets `denied`; it is the parameter
`check : String → Bool × Bool` (accepted, denied). An accepted file's history
entries are processed in order; a denied file only sets the project's
`hasDeniedFiles` flag (second component). -/
def processFile (check : String → Bool × Bool) (acc : DState × Bool)
    (file : FileInfo) : DState × Bool :=
  let r := check file.filename
  if r.1 then (file.history.foldl processEntry acc.1, acc.2)
  else if r.2 then (acc.1, true)
  else acc

/-- Embeds `Downloader::processFiles` (lines 336-365) over the files git
reports for the checked-out branch. -/
def processFiles (check : String → Bool × Bool) (files : List FileInfo)
    (st : DState) (hasDenied : Bool) : DState × Bool :=
  files.foldl (processFile check) (st, hasDenied)

/-- The inner loop of `Downloader::processAllBranches` (lines 317-329): walk
the pending list, reporting (`Error`) and dropping each branch whose checkout
fails, until one checks out or the list is exhausted. Returns the failed
branches in order and, if found, the next branch with the remaining pending
list. -/
def findNextBranch (ok : String → Bool) : List String → List String × Option (String × List String)
  | [] => ([], none)
  | b :: bs =>
      if ok b then ([], some (b, bs))
      else
        let r := findNextBranch ok bs
        (b :: r.1, r.2)

/-- The outer loop of `Downloader::processAllBranches` (lines 311-330) as the
sequence of branches visited (first component) and the branches whose
checkout failed and were reported (second component). `ok b` is the result of
`Git::SetBranch(path, b)`; the loop first erases the current branch from the
pending set, processes it, then repeatedly pops a pending branch, erasing it
as taken, until one checks out, terminating when the pending set is empty.
Every iteration removes at least one pending branch, so the loop is bounded
by the pending count; that bound is the explicit structural fuel here, and
`visitBranches` supplies a sufficient amount. -/
def visitLoop (ok : String → Bool) : Nat → String → List String → List String × List String
  | 0, current, _ => ([current], [])
  | fuel + 1, current, branches =>
      match findNextBranch ok (branches.erase current) with
      | (errs, none) => ([current], errs)
      | (errs, some (b, rest)) =>
          let r := visitLoop ok fuel b rest
          (current :: r.1, errs ++ r.2)

/-- Embeds `Downloader::processAllBranches` (lines 308-331) as the visited
and checkout-failed branch sequences: `current` is `Git::GetCurrentBranch`'s
result and `branches` the pending set from `Git::GetBranches`. -/
def visitBranches (ok : String → Bool) (current : String) (branches : List String) :
    List String × List String :=
  visitLoop ok branches.length current branches

/-- Modelled from the spec: the git-visible content of a cloned repository
(git.h is not under src/): the branch set `Git::GetBranches`, the initially
checked-out branch `Git::GetCurrentBranch`, which branches
`Git::SetBranch` can check out, and the tracked files `Git::GetFileInfo`
reports per checked-out branch. -/
structure RepoData where
  branches : List String
  current : String
  checkoutOk : String → Bool
  filesOf : String → List FileInfo

/-- State-level `Downloader::processAllBranches` (lines 308-331): process the
files of each visited branch in visit order. -/
def processAllBranches (check : String → Bool × Bool) (repo : RepoData)
    (st : DState) (hasDenied : Bool) : DState × Bool :=
  ((visitBranches repo.checkoutOk repo.current repo.branches).1).foldl
    (fun acc b => processFiles check (repo.filesOf b) acc.1 acc.2)
    (st, hasDenied)

/-- Modelled from the spec: the outcome of `Git::Clone` (git.h is not under
src/). On success the workspace directory exists with the repository's
content; on failure `Git::Clone` returns false and whether a partial
destination directory is left behind is outside the embedded code, so it is
the parameter `leavesDir`. -/
inductive CloneResult where
  | ok (repo : RepoData)
  | fail (leavesDir : Bool)

/-- One scheduled project task as `Downloader::run` receives it, together
with the outcome its git url produces when cloned. -/
structure ProjectTask where
  id : Int
  gitUrl : String
  clone : CloneResult

/-- Embeds `Downloader::TempPath() << "/" << p.id()` (lines 296, 404-406):
the deterministic workspace path for a project id, relative to the output
root. -/
def localPath (id : Int) : String := "temp/" ++ toString id

/-- Embeds `Downloader::download` (lines 295-306): set the local path, delete
a stale directory at that path if present, then clone. On clone failure the
function throws (`throw std::runtime_error(...)`), which the result `none`
records; on success the workspace directory exists and the repository data is
returned. -/
def download (t : ProjectTask) (st : DState) : DState × Option RepoData :=
  let path := localPath t.id
  let st1 : DState := { st with dirs := st.dirs.erase path }
  match t.clone with
  | CloneResult.ok repo => ({ st1 with dirs := st1.dirs ++ [path] }, some repo)
  | CloneResult.fail leaves =>
      (if leaves then { st1 with dirs := st1.dirs ++ [path] } else st1, none)

/-- Embeds `Downloader::run` (lines 279-292): clone, process all branches,
then `deleteProject` removes the workspace (lines 395-398). When `download`
throws, the exception propagates out of `run`, so neither
`processAllBranches` nor `deleteProject` executes; `run`'s body contains no
reset of the member `files_`. -/
def run (check : String → Bool × Bool) (t : ProjectTask) (st : DState) : DState :=
  match download t st with
  | (st1, none) => st1
  | (st1, some repo) =>
      let r := processAllBranches check repo st1 false
      { r.1 with dirs := r.1.dirs.erase (localPath t.id) }

/-- Modelled from the spec: the worker loop (include/worker.h is not under
src/). The spec says "each worker runs one project's full crawl (clone → all
branches → cleanup) to completion before taking the next", so one worker's
`Downloader` instance — including its member `files_` — persists across the
tasks it executes, invoking `run` on each in turn. -/
def workerRun (check : String → Bool × Bool) (tasks : List ProjectTask)
    (st : DState) : DState :=
  tasks.foldl (fun s t => run check t s) st

/-- A worker mid-`getContentId` for the concurrency model of the
unsynchronized section (lines 370-384, `// TODO lock this`): `pc = 0` before
the hash lookup, `pc = 1` after the table insert with the disk write still
pending (`pending` holds the allocated id), `pc = 2` after the call
completed; `ret` is the value the call returned (`some id` on a hit,
`none` — the missing return — on a completed miss). -/
structure CWorker where
  text : String
  pc : Nat
  pending : Int
  ret : Option Int
  deriving DecidableEq

/-- One atomic step of a worker inside `getContentId`, splitting the function
at the point the absent lock leaves unprotected: step one performs the lookup
and, on a miss, the allocation and table insert; step two performs the disk
write of the pending blob. A hit completes in one step, returning the
registered id. -/
def cstep (w : CWorker) (st : Store) : CWorker × Store :=
  match w.pc with
  | 0 =>
      match st.fileHashes.lookup (hashCalculate w.text) with
      | some id => ({ w with pc := 2, ret := some id }, st)
      | none =>
          let id : Int := st.fileHashes.length
          ({ w with pc := 1, pending := id },
           { st with fileHashes := st.fileHashes ++ [(hashCalculate w.text, id)] })
  | 1 => ({ w with pc := 2 }, { st with written := st.written ++ [(w.pending, w.text)] })
  | _ => (w, st)

/-- One scheduler step over two workers sharing the store: `true` steps the
first worker, `false` the second. -/
def schedStep (x : CWorker × CWorker × Store) (w : Bool) : CWorker × CWorker × Store :=
  if w then
    let r := cstep x.1 x.2.2
    (r.1, x.2.1, r.2)
  else
    let r := cstep x.2.1 x.2.2
    (x.1, r.1, r.2)

/-- An interleaved execution of two workers under a given schedule. -/
def runSchedule (sched : List Bool) (x : CWorker × CWorker × Store) :
    CWorker × CWorker × Store :=
  sched.foldl schedStep x

/-- Concrete repository content used in evidence theorems: one branch
`master` (also the current branch), whose checkout always succeeds, holding
one tracked file `f.js` with a single history entry — commit `c1`, path
`f.js`, retrievable text `txt`. -/
def sampleRepo : RepoData :=
  { branches := ["master"], current := "master",
    checkoutOk := fun _ => true,
    filesOf := fun _ =>
      [{ filename := "f.js",
         history := [{ hash := "c1", filename := "f.js", date := 0,
                       content := some "txt" }] }] }

/-- A classifier that accepts every path and denies none, standing for a
permissive `PatternList` configuration in evidence theorems. -/
def acceptAll : String → Bool × Bool := fun _ => (true, false)

theorem findNextBranch_none (ok : String → Bool) :
    ∀ l : List String, (findNextBranch ok l).2 = none →
      (findNextBranch ok l).1 = l ∧ ∀ x ∈ l, ok x = false := by
  intro l
  induction l with
  | nil => intro _; exact ⟨rfl, by simp⟩
  | cons b bs ih =>
      intro h
      by_cases hb : ok b = true
      · simp [findNextBranch, hb] at h
      · have hb' : ok b = false := Bool.eq_false_iff.mpr hb
        simp [findNextBranch, hb'] at h ⊢
        rcases ih h with ⟨h1, h2⟩
        exact ⟨h1, h2⟩

theorem findNextBranch_some (ok : String → Bool) :
    ∀ (l e : List String) (b : String) (rest : List String),
      findNextBranch ok l = (e, some (b, rest)) →
      l = e ++ b :: rest ∧ (∀ x ∈ e, ok x = false) ∧ ok b = true := by
  intro l
  induction l with
  | nil => intro e b rest h; simp [findNextBranch] at h
  | cons c cs ih =>
      intro e b rest h
      by_cases hc : ok c = true
      · simp [findNextBranch, hc] at h
        rcases h with ⟨he, hb, hrest⟩
        subst he; subst hb; subst hrest
        exact ⟨rfl, by simp, hc⟩
      · have hc' : ok c = false := Bool.eq_false_iff.mpr hc
        simp [findNextBranch, hc'] at h
        rcases h with ⟨he, h2⟩
        rcases ih (findNextBranch ok cs).1 b rest (by rw [← h2]) with ⟨h3, h4, h5⟩
        subst he
        refine ⟨by simp [← h3], ?_, h5⟩
        intro x hx
        rcases List.mem_cons.mp hx with hx | hx
        · rw [hx]; exact hc'
        · exact h4 x hx

theorem findNextBranch_rest_length (ok : String → Bool) (l e : List String)
    (b : String) (rest : List String) (h : findNextBranch ok l = (e, some (b, rest))) :
    rest.length < l.length := by
  have h1 := (findNextBranch_some ok l e b rest h).1
  subst h1
  simp
  omega

theorem visitLoop_none (ok : String → Bool) (fuel : Nat) (current : String)
    (branches errs : List String)
    (h : findNextBranch ok (branches.erase current) = (errs, none)) :
    visitLoop ok (fuel + 1) current branches = ([current], errs) := by
  simp [visitLoop, h]

theorem visitLoop_some (ok : String → Bool) (fuel : Nat) (current b : String)
    (branches errs rest : List String)
    (h : findNextBranch ok (branches.erase current) = (errs, some (b, rest))) :
    visitLoop ok (fuel + 1) current branches =
      (current :: (visitLoop ok fuel b rest).1,
       errs ++ (visitLoop ok fuel b rest).2) := by
  simp [visitLoop, h]

/-- Full characterization of the branch loop under sufficient fuel and a
duplicate-free pending set: the current branch is visited first, then exactly
the remaining branches whose checkout succeeds, in order, and exactly the
remaining branches whose checkout fails are reported. -/
theorem visitLoop_spec (ok : String → Bool) :
    ∀ (fuel : Nat) (current : String) (branches : List String),
      branches.length ≤ fuel → branches.Nodup →
      visitLoop ok fuel current branches =
        (current :: (branches.erase current).filter ok,
         (branches.erase current).filter (fun b => !(ok b))) := by
  intro fuel
  induction fuel with
  | zero =>
      intro current branches hlen _
      have hb : branches = [] := List.length_eq_zero.mp (Nat.le_zero.mp hlen)
      subst hb
      simp [visitLoop]
  | succ fuel ih =>
      intro current branches hlen hnd
      rcases hfn : findNextBranch ok (branches.erase current) with ⟨errs, r⟩
      cases r with
      | none =>
          rcases findNextBranch_none ok (branches.erase current) (by rw [hfn]) with ⟨h1, h2⟩
          rw [hfn] at h1
          simp only at h1
          have hfil1 : (branches.erase current).filter ok = [] := by
            apply List.filter_eq_nil_iff.mpr
            intro a ha
            simp [h2 a ha]
          have hfil2 : (branches.erase current).filter (fun b => !(ok b)) =
              branches.erase current := by
            apply List.filter_eq_self.mpr
            intro a ha
            simp [h2 a ha]
          rw [visitLoop_none ok fuel current branches errs hfn, hfil1, hfil2, h1]
      | some r2 =>
          rcases r2 with ⟨b, rest⟩
          rcases findNextBranch_some ok (branches.erase current) errs b rest hfn with
            ⟨hsplit, herrs, hb⟩
          have hnde : (branches.erase current).Nodup := hnd.erase current
          rw [hsplit] at hnde
          have hbrest : (b :: rest).Nodup := hnde.of_append_right
          have hbmem : b ∉ rest := (List.nodup_cons.mp hbrest).1
          have hrestnd : rest.Nodup := (List.nodup_cons.mp hbrest).2
          have hlen2 : rest.length ≤ fuel := by
            have e1 := findNextBranch_rest_length ok (branches.erase current) errs b rest hfn
            have e2 : (branches.erase current).length ≤ branches.length :=
              branches.length_erase_le current
            omega
          have hfe1 : errs.filter ok = [] := by
            apply List.filter_eq_nil_iff.mpr
            intro a ha
            simp [herrs a ha]
          have hfe2 : errs.filter (fun x => !(ok x)) = errs := by
            apply List.filter_eq_self.mpr
            intro a ha
            simp [herrs a ha]
          rw [visitLoop_some ok fuel current b branches errs rest hfn,
              ih b rest hlen2 hrestnd, List.erase_of_not_mem hbmem, hsplit]
          simp [List.filter_append, hfe1, hfe2, hb]

/-- Association-list lookup finds a key appended at the end. -/
theorem lookup_append_self (k : String) (v : Int) :
    ∀ l : List (String × Int), ((l ++ [(k, v)]).lookup k).isSome := by
  intro l
  induction l with
  | nil => simp [List.lookup]
  | cons p ps ih =>
      by_cases h : k == p.1
      · simp [List.lookup, h]
      · simpa [List.lookup, h] using ih

/-- After `getContentId`, the submitted text's hash is registered in the hash
table: on a hit it already was, on a miss the call inserted it. -/
theorem getContentId_registers (text : String) (st : Store) :
    ((getContentId text st).2.fileHashes.lookup (hashCalculate text)).isSome := by
  cases hl : st.fileHashes.lookup (hashCalculate text) with
  | some id => simp [getContentId, hl]
  | none =>
      simp only [getContentId, hl]
      exact lookup_append_self (hashCalculate text) st.fileHashes.length st.fileHashes

/-- C1 (code_bug evidence): the miss path of `getContentId` yields no id.
Submitting text "a" to an empty store allocates id 0, inserts the hash
mapping and writes the blob, but the call's return value is `none` — the
function falls off its end without returning the freshly allocated id,
contradicting the claim that registration returns the valid id
unconditionally. -/
theorem c1_miss_path_returns_no_id :
    getContentId "a" { fileHashes := [], written := [] } =
      (none, { fileHashes := [("a", 0)], written := [(0, "a")] }) := by
  decide

/-- C2 (code_bug evidence): two submissions of equal bytes "b" from the empty
store. The blob is written exactly once and the second submission performs no
disk write and leaves the hash table unchanged — but the two calls do not
return the same content id: the first returns nothing (`none`, the missing
return on the registration path) while the second returns `some 0`. -/
theorem c2_equal_bytes_ids_differ :
    (getContentId "b" { fileHashes := [], written := [] }).1 = none ∧
    (getContentId "b" { fileHashes := [("b", 0)], written := [(0, "b")] }).1 = some 0 ∧
    (getContentId "b" { fileHashes := [], written := [] }).2 =
      { fileHashes := [("b", 0)], written := [(0, "b")] } ∧
    (getContentId "b" { fileHashes := [("b", 0)], written := [(0, "b")] }).2 =
      { fileHashes := [("b", 0)], written := [(0, "b")] } := by
  decide

/-- C3 (code_bug evidence): the (commit, path) seen set is scoped to the
worker, not to one project's run. A worker that processes project 1 and then
project 2, both containing the identical history entry (commit `c1`, path
`f.js`), ends with a single snapshot: the entry in project 2 is suppressed by
the `files_` set left over from project 1, contradicting the claim that a
pair seen in an earlier project does not suppress a later project's
processing. By contrast (second conjunct), a fresh per-project set — same
global store, empty `files_` — does process project 2's entry: it consults
the store (hash hit, id 0, no new write) and records the snapshot. -/
theorem c3_seen_set_persists_across_projects :
    workerRun acceptAll
      [{ id := 1, gitUrl := "u1", clone := CloneResult.ok sampleRepo },
       { id := 2, gitUrl := "u2", clone := CloneResult.ok sampleRepo }]
      { files := [], store := { fileHashes := [], written := [] }, dirs := [] } =
      { files := [{ id := 0, commit := "c1", relPath := "f.js", contentId := none, time := 0 }],
        store := { fileHashes := [("txt", 0)], written := [(0, "txt")] },
        dirs := [] } ∧
    workerRun acceptAll
      [{ id := 2, gitUrl := "u2", clone := CloneResult.ok sampleRepo }]
      { files := [],
        store := { fileHashes := [("txt", 0)], written := [(0, "txt")] },
        dirs := [] } =
      { files := [{ id := 0, commit := "c1", relPath := "f.js", contentId := some 0, time := 0 }],
        store := { fileHashes := [("txt", 0)], written := [(0, "txt")] },
        dirs := [] } := by
  constructor <;> decide

/-- C4 (code_bug evidence): the seed line `https://x/y.git,abc` — two fields
with a non-numeric id — is scheduled as a project with id `strtol("abc") = 0`
and no error is reported, because `strtol` does not throw and the
`try`/`catch` never reaches the `Error` call, contradicting the claim that
such a line is reported and not scheduled. -/
theorem c4_nonnumeric_id_scheduled_not_reported :
    feedProjectsFrom "urls.csv" [["https://x/y.git", "abc"]] 0 =
      { idIndex := 1,
        scheduled := [{ id := 0, gitUrl := "https://x/y.git" }],
        errors := [] } := by
  decide

/-- C5 (code_bug evidence): when a project's clone fails leaving its partial
destination directory behind, the exception thrown in `download` propagates
out of `run` before `deleteProject`, so the workspace `temp/7` still exists
after the run — teardown does not execute on the clone-failure path. The
second conjunct shows the success path for the same workspace does end with
the directory removed. -/
theorem c5_workspace_survives_clone_failure :
    run acceptAll { id := 7, gitUrl := "u", clone := CloneResult.fail true }
      { files := [], store := { fileHashes := [], written := [] }, dirs := [] } =
      { files := [], store := { fileHashes := [], written := [] }, dirs := ["temp/7"] } ∧
    run acceptAll { id := 7, gitUrl := "u", clone := CloneResult.ok sampleRepo }
      { files := [], store := { fileHashes := [], written := [] }, dirs := [] } =
      { files := [{ id := 0, commit := "c1", relPath := "f.js", contentId := none, time := 0 }],
        store := { fileHashes := [("txt", 0)], written := [(0, "txt")] },
        dirs := [] } := by
  constructor <;> decide

/-- C6: id-floor resumability of the project-id allocator. Constructing a
project with explicit id `m` against allocator value `k` yields a project
whose own id is `m`, and the next auto-id construction yields `m + 1` when
`m ≥ k` (the compare-and-retry loop raised the counter) and `k` when `m < k`
(the counter was left unchanged). -/
theorem c6_id_floor_resumability (url url2 : String) (k m : Int) :
    (createWithId url m k).1.id = m ∧
    (createAuto url2 (createWithId url m k).2).1.id =
      if k ≤ m then m + 1 else k := by
  constructor
  · rfl
  · simp [createAuto, createWithId]

/-- C7: branch traversal processes the current branch first, then exactly the
remaining branches (each erased from the pending set as taken) in pending
order, visiting each branch whose checkout succeeds exactly once and
reporting and skipping each branch whose checkout fails, the rest still being
attempted; the loop ends exactly when the pending set is empty. Stated as the
full characterization of the visited and reported sequences for every
duplicate-free pending set. -/
theorem c7_branch_traversal (ok : String → Bool) (current : String)
    (branches : List String) (hnd : branches.Nodup) :
    visitBranches ok current branches =
      (current :: (branches.erase current).filter ok,
       (branches.erase current).filter (fun b => !(ok b))) :=
  visitLoop_spec ok branches.length current branches (le_refl _) hnd

/-- Witness for C7 at the spec's own example: branches {A, B, C}, current
branch B, checkout of A fails — B is visited first, then C; A is reported;
each exactly once. -/
theorem c7_witness :
    (["A", "B", "C"] : List String).Nodup ∧
    visitBranches (fun b => b != "A") "B" ["A", "B", "C"] =
      ("B" :: ((["A", "B", "C"] : List String).erase "B").filter (fun b => b != "A"),
       ((["A", "B", "C"] : List String).erase "B").filter (fun b => !(b != "A"))) ∧
    visitBranches (fun b => b != "A") "B" ["A", "B", "C"] = (["B", "C"], ["A"]) :=
  ⟨by decide, c7_branch_traversal (fun b => b != "A") "B" ["A", "B", "C"] (by decide),
   by decide⟩

/-- C8: a history entry whose revision retrieval reports the file absent
(deleted) changes nothing — no snapshot is stored, no content id is
allocated, the (commit, path) is not marked seen; and dually, any snapshot
present after processing an entry was either already there or was inserted
with its content retrieved (`content = some text`) and its hash registered in
the content store. -/
theorem c8_deleted_revision_not_recorded (st : DState) (fh : FileHistory) :
    (fh.content = none → processEntry st fh = st) ∧
    (∀ fs ∈ (processEntry st fh).files, fs ∈ st.files ∨
      ∃ text, fh.content = some text ∧
        ((processEntry st fh).store.fileHashes.lookup (hashCalculate text)).isSome) := by
  by_cases hany : st.files.any (fun g => fsBeq g (mkFileSnapshot fh)) = true
  · constructor
    · intro _
      simp [processEntry, hany]
    · intro fs hfs
      simp [processEntry, hany] at hfs
      exact Or.inl hfs
  · have hany' : st.files.any (fun g => fsBeq g (mkFileSnapshot fh)) = false :=
      Bool.eq_false_iff.mpr hany
    cases hc : fh.content with
    | none =>
        constructor
        · intro _
          simp [processEntry, hany', hc]
        · intro fs hfs
          simp [processEntry, hany', hc] at hfs
          exact Or.inl hfs
    | some text =>
        constructor
        · intro h
          simp at h
        · intro fs hfs
          simp [processEntry, hany', hc] at hfs
          rcases hfs with hfs | hfs
          · exact Or.inl hfs
          · have hred : (processEntry st fh).store = (getContentId text st.store).2 := by
              simp [processEntry, hany', hc]
            refine Or.inr ⟨text, rfl, ?_⟩
            rw [hred]
            exact getContentId_registers text st.store

/-- Witness for C8: a deleted revision (commit `c`, path `f.js`,
`content = none`) leaves the empty worker state unchanged; and the snapshot
inserted for a retrievable entry (`content = some "txt"`) satisfies the
registration disjunct. -/
theorem c8_witness :
    (processEntry { files := [], store := { fileHashes := [], written := [] }, dirs := [] }
        { hash := "c", filename := "f.js", date := 3, content := none } =
      { files := [], store := { fileHashes := [], written := [] }, dirs := [] }) ∧
    ({ id := 0, commit := "c", relPath := "f.js", contentId := none, time := 3 } ∈
        ({ files := [], store := { fileHashes := [], written := [] },
           dirs := [] } : DState).files ∨
      ∃ text,
        ({ hash := "c", filename := "f.js", date := 3,
           content := some "txt" } : FileHistory).content = some text ∧
        ((processEntry
            { files := [], store := { fileHashes := [], written := [] }, dirs := [] }
            { hash := "c", filename := "f.js", date := 3,
              content := some "txt" }).store.fileHashes.lookup
          (hashCalculate text)).isSome) :=
  ⟨(c8_deleted_revision_not_recorded
      { files := [], store := { fileHashes := [], written := [] }, dirs := [] }
      { hash := "c", filename := "f.js", date := 3, content := none }).1 rfl,
   (c8_deleted_revision_not_recorded
      { files := [], store := { fileHashes := [], written := [] }, dirs := [] }
      { hash := "c", filename := "f.js", date := 3, content := some "txt" }).2
     { id := 0, commit := "c", relPath := "f.js", contentId := none, time := 3 }
     (by decide)⟩

/-- C9 (code_bug evidence): with no lock around the
lookup/allocate/insert/write sequence (the code's own `// TODO lock this`),
the schedule in which worker A performs the hash-table insert for text "t"
and worker B then performs its lookup leaves B completed (`pc = 2`), handed
content id 0 (`ret = some 0`), while no blob has been written
(`written = []`) — B observes the hash as registered before the bytes are
durably written, refuting the single-critical-section claim for the code as
written. -/
theorem c9_unlocked_registration_race :
    runSchedule [true, false]
      ({ text := "t", pc := 0, pending := 0, ret := none },
       { text := "t", pc := 0, pending := 0, ret := none },
       { fileHashes := [], written := [] }) =
      ({ text := "t", pc := 1, pending := 0, ret := none },
       { text := "t", pc := 2, pending := 0, ret := some 0 },
       { fileHashes := [("t", 0)], written := [] }) := by
  decide

/-- C10: the hash defined for `FileSnapshot` is consistent with its equality:
snapshots equal under `operator==` (equal commit and equal relative path)
receive equal `std::hash<FileSnapshot>` values, for every underlying string
hash. -/
theorem c10_hash_consistent_with_eq (hstr : String → Nat) (a b : FileSnapshot)
    (h : fsBeq a b = true) : fsHash hstr a = fsHash hstr b := by
  simp only [fsBeq, Bool.and_eq_true, beq_iff_eq] at h
  simp [fsHash, h.1, h.2]

/-- Witness for C10 at concrete snapshots that differ in id, content id and
time but agree on commit and relative path. -/
theorem c10_witness :
    fsBeq { id := 0, commit := "c1", relPath := "a/b.js", contentId := some 3, time := 5 }
          { id := 7, commit := "c1", relPath := "a/b.js", contentId := none, time := 9 } = true ∧
    fsHash String.length
          { id := 0, commit := "c1", relPath := "a/b.js", contentId := some 3, time := 5 } =
    fsHash String.length
          { id := 7, commit := "c1", relPath := "a/b.js", contentId := none, time := 9 } :=
  ⟨by decide, c10_hash_consistent_with_eq String.length _ _ (by decide)⟩
